import Mathlib

/-!
# Verification of the Note backend (note routes, validation, data model)

Shallow embedding of the note-taking backend:
* `prisma/schema.prisma` — the `User`, `Note`, `NoteVersion` records;
* `src/utils/validationUtils.js` — `noteValidation` + `handleValidationErrors`;
* `src/routes/noteRoutes.js` — the note route handlers (list, create, get,
  unlock, update, revert, versions) together with the `authenticate` and
  `checkNoteOwnership` middleware from `src/middleware/authMiddleware.js`.

Modelling conventions:
* Database rows live in a `DB` state record; Prisma's autoincrement ids are
  `nextNoteId` / `nextVersionId`, and row timestamps are drawn from a logical
  `clock` that advances at every row write (each write gets a fresh tick, so
  `createdAt` of successive writes strictly increases, matching wall-clock
  order of the inserts).
* bcrypt is the spec's opaque one-way function; it is modelled as an
  injective tagging function, and `bcrypt.compare` as the matching test.
* A JS request-body field that may be absent is an `Option`; JS truthiness of
  a string is "present and non-empty", of an optional boolean "present and
  true".
* Each handler is a function from the `DB` and the request data to a
  response; mutating handlers also return the new `DB` (unchanged on error
  paths, which in the source return before any Prisma write).
* Express sends errors as HTTP statuses; the statuses used by these routes
  are modelled by `ApiError` (400 validation, 401 unauthorized, 403
  forbidden, 404 not found).
* The `authenticate` middleware is modelled by passing the authenticated
  caller's user id to every handler; token mechanics are out of scope of the
  claims below.
-/

namespace NoteApp

/-- `User` row (`prisma/schema.prisma`); only the fields selected by the note
routes (`id`, `name`, `email`) are carried. -/
structure User where
  id : Nat
  name : String
  email : String
deriving Repr, DecidableEq

/-- `Note` row (`prisma/schema.prisma`): `password` is nullable (`String?`). -/
structure Note where
  id : Nat
  title : String
  description : String
  isProtected : Bool
  password : Option String
  ownerId : Nat
  createdAt : Nat
  updatedAt : Nat
deriving Repr, DecidableEq

/-- `NoteVersion` row (`prisma/schema.prisma`). -/
structure NoteVersion where
  id : Nat
  title : String
  description : String
  noteId : Nat
  createdAt : Nat
deriving Repr, DecidableEq

/-- The relational store: rows plus autoincrement counters and the logical
clock supplying `createdAt`/`updatedAt` timestamps. -/
structure DB where
  users : List User
  notes : List Note
  versions : List NoteVersion
  nextNoteId : Nat
  nextVersionId : Nat
  clock : Nat
deriving Repr, DecidableEq

/-- A note request body (`req.body` as read by the note routes): every field
may be absent. -/
structure NoteBody where
  title : Option String
  description : Option String
  isProtected : Option Bool
  password : Option String
deriving Repr, DecidableEq

/-- HTTP method, as tested by the `password` custom validator
(`req.method === 'POST'`). -/
inductive Method
  | POST
  | PATCH
deriving Repr, DecidableEq

/-- The error statuses produced by the note routes:
400 `validation`, 401 `unauthorized`, 403 `forbidden`, 404 `notFound`. -/
inductive ApiError
  | validation (msg : String)
  | unauthorized (msg : String)
  | forbidden (msg : String)
  | notFound (msg : String)
deriving Repr, DecidableEq

/-- A note JSON response body. `description = none` encodes JSON `null`;
`password = none` encodes an absent/`undefined` key (JSON.stringify drops
`undefined` values); `needsPassword` is `false` when the key is absent. -/
structure NoteResponse where
  id : Nat
  title : String
  description : Option String
  isProtected : Bool
  password : Option String
  ownerId : Nat
  createdAt : Nat
  updatedAt : Nat
  needsPassword : Bool
deriving Repr, DecidableEq

/-- One entry of the `GET /:id/versions` response. `id = none` encodes the
non-numeric sentinel id `'current'` of the synthetic current entry;
`isCurrent = false` encodes an absent `isCurrent` key. -/
structure VersionEntry where
  id : Option Nat
  title : String
  description : String
  noteId : Nat
  createdAt : Nat
  isCurrent : Bool
deriving Repr, DecidableEq

/-- One entry of the `GET /` response: the `select`ed note metadata with the
`select`ed owner sub-record flattened. -/
structure NoteListItem where
  id : Nat
  title : String
  isProtected : Bool
  createdAt : Nat
  updatedAt : Nat
  ownerId : Nat
  ownerName : String
  ownerEmail : String
deriving Repr, DecidableEq

/-- bcrypt hashing, modelled as an injective tag (the spec treats the hasher
as an opaque one-way function). -/
def bcryptHash (s : String) : String := "bcrypt$" ++ s

/-- `bcrypt.compare raw stored`: true exactly when `stored` is the hash of
`raw` (`none` — no stored hash — never verifies). -/
def bcryptCompare (raw : String) (stored : Option String) : Bool :=
  match stored with
  | some h => h == bcryptHash raw
  | none => false

/-- JS truthiness of an optional string field: present and non-empty. -/
def truthyStr : Option String → Bool
  | some s => !(s == "")
  | none => false

/-- JS truthiness of an optional boolean field: present and `true`. -/
def truthyBool : Option Bool → Bool
  | some b => b
  | none => false

/-- Whitespace as removed by the validator's `trim()` sanitizer. -/
def isWs (c : Char) : Bool :=
  c == ' ' || c == '\t' || c == '\n' || c == '\r'

/-- The `trim()` sanitizer of express-validator: drop leading and trailing
whitespace (structurally recursive model of `String.trim`). -/
def strTrim (s : String) : String :=
  String.mk (((s.data.dropWhile isWs).reverse.dropWhile isWs).reverse)

/-- `noteValidation` chain + `handleValidationErrors`
(`src/utils/validationUtils.js`):
* `title`: trimmed, required non-empty, at most 255 characters;
* `description`: trimmed, required non-empty;
* `isProtected`: optional boolean (always well-typed here);
* `password`: optional custom rule — it only runs when the field is present,
  and fails exactly for a POST with truthy `isProtected` and falsy value.
Returns the sanitized (trimmed) body when validation passes, `none` when
`handleValidationErrors` would answer 400. -/
def noteValidation (method : Method) (b : NoteBody) : Option NoteBody :=
  let sane : NoteBody :=
    { b with
      title := b.title.map strTrim
      description := b.description.map strTrim }
  let titleOk : Bool :=
    match sane.title with
    | some t => !(t == "") && decide (t.length ≤ 255)
    | none => false
  let descOk : Bool :=
    match sane.description with
    | some d => !(d == "")
    | none => false
  let passwordOk : Bool :=
    match sane.password with
    | some v => !(decide (method = Method.POST) && truthyBool sane.isProtected && (v == ""))
    | none => true
  if titleOk && descOk && passwordOk then some sane else none

/-- `prisma.note.findUnique({ where: { id: noteId } })`. -/
def findNote (db : DB) (noteId : Nat) : Option Note :=
  db.notes.find? (fun n => n.id == noteId)

/-- `prisma.noteVersion.findUnique({ where: { id: versionId } })`. -/
def findVersion (db : DB) (versionId : Nat) : Option NoteVersion :=
  db.versions.find? (fun v => v.id == versionId)

/-- `prisma.user.findUnique({ where: { id } })` restricted to the selected
fields. -/
def findUser (db : DB) (userId : Nat) : Option User :=
  db.users.find? (fun u => u.id == userId)

/-- Ordered insert for a descending sort by a `Nat` key. -/
def insertByDesc (key : α → Nat) (x : α) : List α → List α
  | [] => [x]
  | y :: ys => if key y ≤ key x then x :: y :: ys else y :: insertByDesc key x ys

/-- `orderBy: { _ : 'desc' }` of Prisma, modelled as insertion sort on the
key, descending. -/
def sortByDesc (key : α → Nat) : List α → List α
  | [] => []
  | x :: xs => insertByDesc key x (sortByDesc key xs)

/-- `prisma.noteVersion.findMany({ where: { noteId } })`, in insertion
order. -/
def versionsOf (db : DB) (noteId : Nat) : List NoteVersion :=
  db.versions.filter (fun v => v.noteId == noteId)

/-- The `{ ...note, password: undefined }` response used by the get, unlock,
update and revert handlers (full content, stored password stripped). -/
def stripNote (n : Note) : NoteResponse :=
  { id := n.id
    title := n.title
    description := some n.description
    isProtected := n.isProtected
    password := none
    ownerId := n.ownerId
    createdAt := n.createdAt
    updatedAt := n.updatedAt
    needsPassword := false }

/-- The owner sub-record of `GET /` (the schema's foreign key guarantees the
owner row exists; a dangling `ownerId` yields a blank owner). -/
def toListItem (db : DB) (n : Note) : NoteListItem :=
  let owner := (findUser db n.ownerId).getD { id := n.ownerId, name := "", email := "" }
  { id := n.id
    title := n.title
    isProtected := n.isProtected
    createdAt := n.createdAt
    updatedAt := n.updatedAt
    ownerId := owner.id
    ownerName := owner.name
    ownerEmail := owner.email }

/-- `GET /` (`noteRoutes.js` lines 11–40): every note row — no `where`
filter, so all users' notes — with selected metadata and owner fields,
ordered by `updatedAt` descending. The authenticated caller `userId` is not
used by the query. -/
def listNotes (db : DB) (userId : Nat) : List NoteListItem :=
  (sortByDesc (fun n => n.updatedAt) db.notes).map (toListItem db)

/-- `res.json(note)` of the create handler: the full row, `password`
included (nothing is stripped on this path). -/
def fullNote (n : Note) : NoteResponse :=
  { id := n.id
    title := n.title
    description := some n.description
    isProtected := n.isProtected
    password := n.password
    ownerId := n.ownerId
    createdAt := n.createdAt
    updatedAt := n.updatedAt
    needsPassword := false }

/-- The `Note` row inserted by the create handler: password hashed exactly
when `isProtected` and the supplied password are both truthy, otherwise
stored as supplied (`isProtected || false` for the flag). -/
def createdNote (db : DB) (userId : Nat) (b : NoteBody) : Note :=
  { id := db.nextNoteId
    title := b.title.getD ""
    description := b.description.getD ""
    isProtected := truthyBool b.isProtected
    password :=
      if truthyBool b.isProtected && truthyStr b.password then
        b.password.map bcryptHash
      else b.password
    ownerId := userId
    createdAt := db.clock
    updatedAt := db.clock }

/-- The `NoteVersion` snapshot of a note's current `(title, description)`,
as written inside the update/revert transactions. -/
def snapshotOf (db : DB) (cur : Note) : NoteVersion :=
  { id := db.nextVersionId
    title := cur.title
    description := cur.description
    noteId := cur.id
    createdAt := db.clock }

/-- `POST /` (`noteRoutes.js` lines 43–102): validate, hash the password when
the note is protected and a password was given, then in one transaction
insert the `Note` row and its initial `NoteVersion` snapshot. The response is
`res.status(201).json(note)` — the full created row, nothing stripped. -/
def createNote (db : DB) (userId : Nat) (body : NoteBody) :
    Except ApiError NoteResponse × DB :=
  match noteValidation Method.POST body with
  | none => (Except.error (ApiError.validation "errors"), db)
  | some b =>
    let newNote : Note := createdNote db userId b
    let newVersion : NoteVersion :=
      { id := db.nextVersionId
        title := newNote.title
        description := newNote.description
        noteId := newNote.id
        createdAt := db.clock + 1 }
    let db' : DB :=
      { db with
        notes := db.notes ++ [newNote]
        versions := db.versions ++ [newVersion]
        nextNoteId := db.nextNoteId + 1
        nextVersionId := db.nextVersionId + 1
        clock := db.clock + 2 }
    (Except.ok (fullNote newNote), db')

/-- `GET /:id` (`noteRoutes.js` lines 105–147): 404 when absent; for a
protected note read by a non-owner, content is withheld
(`description: null, needsPassword: true, password: undefined`); otherwise
the full note with the password stripped. -/
def getNote (db : DB) (userId : Nat) (noteId : Nat) : Except ApiError NoteResponse :=
  match findNote db noteId with
  | none => Except.error (ApiError.notFound "Note not found")
  | some note =>
    if note.isProtected && !(note.ownerId == userId) then
      Except.ok
        { id := note.id
          title := note.title
          description := none
          isProtected := note.isProtected
          password := none
          ownerId := note.ownerId
          createdAt := note.createdAt
          updatedAt := note.updatedAt
          needsPassword := true }
    else
      Except.ok (stripNote note)

/-- `POST /:id/unlock` (`noteRoutes.js` lines 150–187): 400 when the supplied
password is falsy, 404 when the note is absent, 400 when it is not protected,
401 when `bcrypt.compare` rejects, otherwise the full note with the stored
hash stripped. -/
def unlockNote (db : DB) (userId : Nat) (noteId : Nat) (password : Option String) :
    Except ApiError NoteResponse :=
  if !(truthyStr password) then
    Except.error (ApiError.validation "Password is required")
  else
    match findNote db noteId with
    | none => Except.error (ApiError.notFound "Note not found")
    | some note =>
      if !note.isProtected then
        Except.error (ApiError.validation "This note is not protected")
      else if !(bcryptCompare (password.getD "") note.password) then
        Except.error (ApiError.unauthorized "Invalid password")
      else
        Except.ok (stripNote note)

/-- `checkNoteOwnership` middleware (`authMiddleware.js`): 404 when the note
is absent, 403 when the caller is not the owner. -/
def checkNoteOwnership (db : DB) (userId : Nat) (noteId : Nat) : Option ApiError :=
  match findNote db noteId with
  | none => some (ApiError.notFound "Note not found")
  | some note =>
    if !(note.ownerId == userId) then
      some (ApiError.forbidden "Access denied. You are not the owner of this note")
    else none

/-- The `updateData` of the update handler applied to the current row:
each present field replaces the stored one (absent fields spread to
nothing); the password — hashed exactly when `isProtected` is truthy in the
same patch — is written only when truthy, so it is never cleared. Prisma's
`@updatedAt` refreshes the timestamp. -/
def patchedNote (db : DB) (cur : Note) (b : NoteBody) : Note :=
  let password : Option String :=
    if truthyBool b.isProtected && truthyStr b.password then
      b.password.map bcryptHash
    else b.password
  { cur with
    title := b.title.getD cur.title
    description := b.description.getD cur.description
    isProtected := b.isProtected.getD cur.isProtected
    password := if truthyStr password then password else cur.password
    updatedAt := db.clock + 1 }

/-- `PATCH /:id` (`noteRoutes.js` lines 190–277), behind `authenticate`,
`checkNoteOwnership`, `noteValidation`, `handleValidationErrors`:
400 when protecting a not-already-protected note without a password; the
password is hashed only when `isProtected` is truthy; `updateData` takes each
present field, and the (possibly hashed) password only when truthy; in one
transaction the pre-patch `(title, description)` is snapshotted into a new
`NoteVersion` and the patch applied; responds with the updated note, password
stripped. -/
def updateNote (db : DB) (userId : Nat) (noteId : Nat) (body : NoteBody) :
    Except ApiError NoteResponse × DB :=
  match checkNoteOwnership db userId noteId with
  | some e => (Except.error e, db)
  | none =>
    match noteValidation Method.PATCH body with
    | none => (Except.error (ApiError.validation "errors"), db)
    | some b =>
      match findNote db noteId with
      | none => (Except.error (ApiError.notFound "Note not found"), db)
      | some currentNote =>
        if truthyBool b.isProtected && !(truthyStr b.password) && !currentNote.isProtected then
          (Except.error (ApiError.validation "Password is required when protecting a note"), db)
        else
          let updated : Note := patchedNote db currentNote b
          let db' : DB :=
            { db with
              versions := db.versions ++ [snapshotOf db currentNote]
              notes := db.notes.map (fun n => if n.id == noteId then updated else n)
              nextVersionId := db.nextVersionId + 1
              clock := db.clock + 2 }
          (Except.ok (stripNote updated), db')

/-- `GET /:id/versions` (`noteRoutes.js` lines 330–382): 404 when absent, 403
for a non-owner on a protected note; otherwise the synthetic current entry
(sentinel id, live title/description, `createdAt` = the note's `updatedAt`,
flagged current) followed by the persisted versions of the note ordered by
`createdAt` descending. -/
def listVersions (db : DB) (userId : Nat) (noteId : Nat) :
    Except ApiError (List VersionEntry) :=
  match findNote db noteId with
  | none => Except.error (ApiError.notFound "Note not found")
  | some note =>
    if note.isProtected && !(note.ownerId == userId) then
      Except.error (ApiError.forbidden "Access denied - Unlock protected note first")
    else
      let versions := sortByDesc (fun v => v.createdAt) (versionsOf db noteId)
      let currentVersion : VersionEntry :=
        { id := none
          title := note.title
          description := note.description
          noteId := note.id
          createdAt := note.updatedAt
          isCurrent := true }
      Except.ok
        (currentVersion ::
          versions.map (fun v =>
            { id := some v.id
              title := v.title
              description := v.description
              noteId := v.noteId
              createdAt := v.createdAt
              isCurrent := false }))

/-- `POST /:id/revert` (`noteRoutes.js` lines 385–452), behind
`checkNoteOwnership`: 404 when `versionId` does not resolve to a persisted
version of this very note; otherwise, in one transaction, the current
`(title, description)` is snapshotted into a new `NoteVersion` and the note's
`title`/`description` overwritten with the target version's values
(protection flag and password untouched); responds with the reverted note,
password stripped. -/
def revertNote (db : DB) (userId : Nat) (noteId : Nat) (versionId : Nat) :
    Except ApiError NoteResponse × DB :=
  match checkNoteOwnership db userId noteId with
  | some e => (Except.error e, db)
  | none =>
    match findVersion db versionId with
    | none => (Except.error (ApiError.notFound "Version not found"), db)
    | some version =>
      if !(version.noteId == noteId) then
        (Except.error (ApiError.notFound "Version not found"), db)
      else
        match findNote db noteId with
        | none => (Except.error (ApiError.notFound "Note not found"), db)
        | some currentNote =>
          let reverted : Note :=
            { currentNote with
              title := version.title
              description := version.description
              updatedAt := db.clock + 1 }
          let db' : DB :=
            { db with
              versions := db.versions ++ [snapshotOf db currentNote]
              notes := db.notes.map (fun n => if n.id == noteId then reverted else n)
              nextVersionId := db.nextVersionId + 1
              clock := db.clock + 2 }
          (Except.ok (stripNote reverted), db')

/-- `applyUpdates`: fold a list of patch bodies through `PATCH /:id`,
requiring every update to succeed. -/
def applyUpdates (userId : Nat) (noteId : Nat) (db : DB) : List NoteBody → Option DB
  | [] => some db
  | b :: bs =>
    match updateNote db userId noteId b with
    | (Except.ok _, db') => applyUpdates userId noteId db' bs
    | (Except.error _, _) => none

/-- Well-formedness of the store, as Prisma maintains it: autoincrement ids
of existing rows are below the counters, foreign keys of versions point below
the note counter, and all row timestamps are in the past of the clock. -/
def DB.WF (db : DB) : Prop :=
  (∀ n ∈ db.notes, n.id < db.nextNoteId) ∧
  (∀ v ∈ db.versions, v.id < db.nextVersionId) ∧
  (∀ v ∈ db.versions, v.noteId < db.nextNoteId) ∧
  (∀ v ∈ db.versions, v.createdAt < db.clock) ∧
  (∀ n ∈ db.notes, n.updatedAt < db.clock)

instance (db : DB) : Decidable db.WF := by
  unfold DB.WF
  infer_instance

/-! ### Facts about the descending insertion sort -/

theorem length_insertByDesc (key : α → Nat) (x : α) (l : List α) :
    (insertByDesc key x l).length = l.length + 1 := by
  induction l with
  | nil => rfl
  | cons y ys ih =>
    simp only [insertByDesc]
    split
    · simp
    · simp [ih]

theorem mem_insertByDesc (key : α → Nat) (x a : α) (l : List α) :
    a ∈ insertByDesc key x l ↔ a = x ∨ a ∈ l := by
  induction l with
  | nil => simp [insertByDesc]
  | cons y ys ih =>
    simp only [insertByDesc]
    split
    · simp
    · simp only [List.mem_cons, ih]
      tauto

theorem length_sortByDesc (key : α → Nat) (l : List α) :
    (sortByDesc key l).length = l.length := by
  induction l with
  | nil => rfl
  | cons x xs ih => simp [sortByDesc, length_insertByDesc, ih]

theorem mem_sortByDesc (key : α → Nat) (a : α) (l : List α) :
    a ∈ sortByDesc key l ↔ a ∈ l := by
  induction l with
  | nil => simp [sortByDesc]
  | cons x xs ih => simp [sortByDesc, mem_insertByDesc, ih]

theorem pairwise_insertByDesc (key : α → Nat) (x : α) {l : List α}
    (h : l.Pairwise (fun a b => key b ≤ key a)) :
    (insertByDesc key x l).Pairwise (fun a b => key b ≤ key a) := by
  induction l with
  | nil => simp [insertByDesc]
  | cons y ys ih =>
    rcases List.pairwise_cons.mp h with ⟨hy, hys⟩
    by_cases hyx : key y ≤ key x
    · simp only [insertByDesc, if_pos hyx]
      refine List.pairwise_cons.mpr ⟨?_, h⟩
      intro b hb
      rcases List.mem_cons.mp hb with hb | hb
      · subst hb
        exact hyx
      · exact le_trans (hy b hb) hyx
    · simp only [insertByDesc, if_neg hyx]
      refine List.pairwise_cons.mpr ⟨?_, ih hys⟩
      intro b hb
      rcases (mem_insertByDesc key x b ys).mp hb with hb | hb
      · subst hb
        omega
      · exact hy b hb

theorem pairwise_sortByDesc (key : α → Nat) (l : List α) :
    (sortByDesc key l).Pairwise (fun a b => key b ≤ key a) := by
  induction l with
  | nil => simp [sortByDesc]
  | cons x xs ih => exact pairwise_insertByDesc key x ih

theorem insertByDesc_of_lt (key : α → Nat) (x : α) {l : List α}
    (h : ∀ y ∈ l, key x < key y) :
    insertByDesc key x l = l ++ [x] := by
  induction l with
  | nil => rfl
  | cons y ys ih =>
    have hy : key x < key y := h y (List.mem_cons_self y ys)
    simp only [insertByDesc, if_neg (by omega : ¬ key y ≤ key x), List.cons_append]
    rw [ih (fun z hz => h z (List.mem_cons_of_mem y hz))]

/-- On a list whose keys strictly increase, a descending sort is exactly the
reverse. -/
theorem sortByDesc_of_increasing (key : α → Nat) {l : List α}
    (h : l.Pairwise (fun a b => key a < key b)) :
    sortByDesc key l = l.reverse := by
  induction l with
  | nil => rfl
  | cons x xs ih =>
    rcases List.pairwise_cons.mp h with ⟨hx, hxs⟩
    simp only [sortByDesc]
    rw [ih hxs, insertByDesc_of_lt key x (fun y hy => hx y (List.mem_reverse.mp hy))]
    simp

/-! ### Store lemmas -/

theorem find?_append_of_forall_false {p : α → Bool} {l₁ : List α} (l₂ : List α)
    (h : ∀ y ∈ l₁, p y = false) :
    List.find? p (l₁ ++ l₂) = List.find? p l₂ := by
  induction l₁ with
  | nil => rfl
  | cons y ys ih =>
    have hy : p y = false := h y (List.mem_cons_self y ys)
    simp only [List.cons_append, List.find?, hy]
    exact ih (fun z hz => h z (List.mem_cons_of_mem y hz))

/-- Looking up `noteId` after `prisma.note.update` replaced that very row. -/
theorem find?_replace {l : List Note} {nid : Nat} {cur : Note} (updated : Note)
    (hfind : l.find? (fun n => n.id == nid) = some cur) (hid : updated.id = nid) :
    (l.map (fun n => if n.id == nid then updated else n)).find?
      (fun n => n.id == nid) = some updated := by
  have hpf : ((fun n : Note => n.id == nid) ∘
      (fun n : Note => if n.id == nid then updated else n)) =
      (fun n : Note => n.id == nid) := by
    funext n
    by_cases hn : (n.id == nid) = true
    · simp [Function.comp, hn, hid]
    · simp [Function.comp, if_neg hn, hn]
  have hcur : (cur.id == nid) = true := by
    have h2 := List.find?_some hfind
    exact h2
  rw [List.find?_map, hpf, hfind]
  show some (if (cur.id == nid) = true then updated else cur) = some updated
  rw [if_pos hcur]

/-! ### Inversion lemmas for the mutating handlers -/

/-- Inverting a successful `POST /`: the body passed validation and the new
`DB` holds the created row and its initial snapshot; the 201 response is the
full row. -/
theorem createNote_ok_inv {db db' : DB} {userId : Nat} {body : NoteBody}
    {r : NoteResponse}
    (h : createNote db userId body = (Except.ok r, db')) :
    ∃ b, noteValidation Method.POST body = some b ∧
      r = fullNote (createdNote db userId b) ∧
      db' = { db with
        notes := db.notes ++ [createdNote db userId b]
        versions := db.versions ++
          [{ id := db.nextVersionId
             title := (createdNote db userId b).title
             description := (createdNote db userId b).description
             noteId := db.nextNoteId
             createdAt := db.clock + 1 }]
        nextNoteId := db.nextNoteId + 1
        nextVersionId := db.nextVersionId + 1
        clock := db.clock + 2 } := by
  unfold createNote at h
  cases hv : noteValidation Method.POST body with
  | none =>
    rw [hv] at h
    simp at h
  | some b =>
    rw [hv] at h
    simp only [Prod.mk.injEq, Except.ok.injEq] at h
    exact ⟨b, rfl, h.1.symm, h.2.symm⟩

/-- Inverting a successful `PATCH /:id`: the note existed and belonged to the
caller, the body passed validation, and the new `DB` holds the pre-patch
snapshot and the patched row. -/
theorem updateNote_ok_inv {db db' : DB} {userId noteId : Nat} {body : NoteBody}
    {r : NoteResponse}
    (h : updateNote db userId noteId body = (Except.ok r, db')) :
    ∃ cur b, findNote db noteId = some cur ∧
      noteValidation Method.PATCH body = some b ∧
      cur.ownerId = userId ∧
      r = stripNote (patchedNote db cur b) ∧
      db' = { db with
        versions := db.versions ++ [snapshotOf db cur]
        notes := db.notes.map
          (fun n => if n.id == noteId then patchedNote db cur b else n)
        nextVersionId := db.nextVersionId + 1
        clock := db.clock + 2 } := by
  unfold updateNote checkNoteOwnership at h
  split at h
  · simp at h
  · rename_i hnone
    split at h
    · simp at h
    · rename_i b hv
      split at h
      · simp at h
      · rename_i cur hfind
        split at h
        · simp at h
        · rw [hfind] at hnone
          simp only [Prod.mk.injEq, Except.ok.injEq] at h
          have hown : cur.ownerId = userId := by
            by_contra hne
            simp [hne] at hnone
          exact ⟨cur, b, hfind, hv, hown, h.1.symm, h.2.symm⟩

/-! ### The version-history invariant -/

/-- State of a note's history after some operations: the note exists and is
owned by `userId`, and it has exactly `k` persisted versions, appended in
strictly increasing `createdAt` order, all in the past of the clock. -/
def VersionTrack (userId : Nat) (noteId : Nat) (db : DB) (k : Nat) : Prop :=
  (∃ note, findNote db noteId = some note ∧ note.ownerId = userId) ∧
  (versionsOf db noteId).length = k ∧
  (versionsOf db noteId).Pairwise (fun a b => a.createdAt < b.createdAt) ∧
  (∀ v ∈ versionsOf db noteId, v.createdAt < db.clock)

theorem versionTrack_create {db db' : DB} {userId : Nat} {body : NoteBody}
    {r : NoteResponse} (hwf : db.WF)
    (h : createNote db userId body = (Except.ok r, db')) :
    VersionTrack userId r.id db' 1 := by
  obtain ⟨b, hv, hr, hdb⟩ := createNote_ok_inv h
  obtain ⟨hnotes, hvids, hvnids, hvclock, hnclock⟩ := hwf
  subst hr hdb
  have hrid : (fullNote (createdNote db userId b)).id = db.nextNoteId := rfl
  rw [hrid]
  have holdnotes : ∀ n ∈ db.notes, ((fun n : Note => n.id == db.nextNoteId) n) = false := by
    intro n hn
    have := hnotes n hn
    simp
    omega
  have hfind : findNote
      { db with
        notes := db.notes ++ [createdNote db userId b]
        versions := db.versions ++
          [{ id := db.nextVersionId
             title := (createdNote db userId b).title
             description := (createdNote db userId b).description
             noteId := db.nextNoteId
             createdAt := db.clock + 1 }]
        nextNoteId := db.nextNoteId + 1
        nextVersionId := db.nextVersionId + 1
        clock := db.clock + 2 } db.nextNoteId = some (createdNote db userId b) := by
    unfold findNote
    rw [find?_append_of_forall_false _ holdnotes]
    simp [createdNote]
  have hvfilter : ∀ v ∈ db.versions,
      ¬ ((fun v : NoteVersion => v.noteId == db.nextNoteId) v = true) := by
    intro v hv2
    have := hvnids v hv2
    simp
    omega
  have hvers : versionsOf
      { db with
        notes := db.notes ++ [createdNote db userId b]
        versions := db.versions ++
          [{ id := db.nextVersionId
             title := (createdNote db userId b).title
             description := (createdNote db userId b).description
             noteId := db.nextNoteId
             createdAt := db.clock + 1 }]
        nextNoteId := db.nextNoteId + 1
        nextVersionId := db.nextVersionId + 1
        clock := db.clock + 2 } db.nextNoteId =
      [{ id := db.nextVersionId
         title := (createdNote db userId b).title
         description := (createdNote db userId b).description
         noteId := db.nextNoteId
         createdAt := db.clock + 1 }] := by
    unfold versionsOf
    rw [List.filter_append, List.filter_eq_nil_iff.mpr hvfilter]
    simp
  refine ⟨⟨createdNote db userId b, hfind, rfl⟩, ?_, ?_, ?_⟩
  · rw [hvers]
    rfl
  · rw [hvers]
    simp
  · rw [hvers]
    intro v hv2
    simp at hv2
    subst hv2
    simp

theorem versionTrack_update {db db' : DB} {userId noteId k : Nat} {b : NoteBody}
    {r : NoteResponse} (ht : VersionTrack userId noteId db k)
    (h : updateNote db userId noteId b = (Except.ok r, db')) :
    VersionTrack userId noteId db' (k + 1) := by
  obtain ⟨cur, sb, hfind, hv, hown, hr, hdb⟩ := updateNote_ok_inv h
  obtain ⟨⟨note, hfind0, hown0⟩, hlen, hpw, hbound⟩ := ht
  subst hdb
  have hcurid : cur.id = noteId := by
    have h2 := List.find?_some hfind
    simpa using h2
  have hfind' : findNote
      { db with
        versions := db.versions ++ [snapshotOf db cur]
        notes := db.notes.map
          (fun n => if n.id == noteId then patchedNote db cur sb else n)
        nextVersionId := db.nextVersionId + 1
        clock := db.clock + 2 } noteId = some (patchedNote db cur sb) := by
    unfold findNote
    exact find?_replace (patchedNote db cur sb) hfind (by simp [patchedNote, hcurid])
  have hvers : versionsOf
      { db with
        versions := db.versions ++ [snapshotOf db cur]
        notes := db.notes.map
          (fun n => if n.id == noteId then patchedNote db cur sb else n)
        nextVersionId := db.nextVersionId + 1
        clock := db.clock + 2 } noteId =
      versionsOf db noteId ++ [snapshotOf db cur] := by
    unfold versionsOf
    rw [List.filter_append]
    simp [snapshotOf, hcurid]
  refine ⟨⟨patchedNote db cur sb, hfind', ?_⟩, ?_, ?_, ?_⟩
  · simpa [patchedNote] using hown
  · rw [hvers]
    simp [hlen]
  · rw [hvers]
    rw [List.pairwise_append]
    refine ⟨hpw, by simp, ?_⟩
    intro a ha bb hbb
    simp at hbb
    subst hbb
    simp only [snapshotOf]
    exact hbound a ha
  · rw [hvers]
    intro v hv2
    rcases List.mem_append.mp hv2 with hv2 | hv2
    · have := hbound v hv2
      simp
      omega
    · simp at hv2
      subst hv2
      simp [snapshotOf]

theorem versionTrack_applyUpdates {userId noteId : Nat} :
    ∀ {bs : List NoteBody} {db db2 : DB} {k : Nat},
    VersionTrack userId noteId db k → applyUpdates userId noteId db bs = some db2 →
    VersionTrack userId noteId db2 (k + bs.length) := by
  intro bs
  induction bs with
  | nil =>
    intro db db2 k ht h
    simp only [applyUpdates, Option.some.injEq] at h
    subst h
    simpa using ht
  | cons b bs ih =>
    intro db db2 k ht h
    unfold applyUpdates at h
    split at h
    · rename_i r db' heq
      have h2 := ih (versionTrack_update ht heq) h
      have harith : k + 1 + bs.length = k + (bs.length + 1) := by omega
      rw [harith] at h2
      simpa using h2
    · exact absurd h (by simp)

/-! ### Forward-evaluation lemmas for the handlers -/

/-- Sanitization only trims `title` and `description`. -/
theorem noteValidation_some {method : Method} {b sb : NoteBody}
    (h : noteValidation method b = some sb) :
    sb = { b with
           title := b.title.map strTrim
           description := b.description.map strTrim } := by
  unfold noteValidation at h
  dsimp only at h
  split at h
  · exact (Option.some.inj h).symm
  · exact absurd h (by simp)

/-- A present, valid `title` and `description` pass `noteValidation` (for
PATCH the password custom rule never fails). -/
theorem noteValidation_PATCH_ok {b : NoteBody} {t d : String}
    (ht : b.title = some t) (hd : b.description = some d)
    (ht1 : ¬ strTrim t = "") (ht2 : (strTrim t).length ≤ 255)
    (hd1 : ¬ strTrim d = "") :
    noteValidation Method.PATCH b =
      some { b with title := some (strTrim t), description := some (strTrim d) } := by
  unfold noteValidation
  rw [ht, hd]
  dsimp only
  split
  · rfl
  · rename_i hcond
    exfalso
    apply hcond
    cases hbp : b.password <;> simp [ht1, ht2, hd1]

/-- A missing `title` fails `noteValidation` (it is not `optional()`). -/
theorem noteValidation_no_title {method : Method} {b : NoteBody}
    (h : b.title = none) : noteValidation method b = none := by
  unfold noteValidation
  rw [h]
  simp

/-- A missing `description` fails `noteValidation`. -/
theorem noteValidation_no_description {method : Method} {b : NoteBody}
    (h : b.description = none) : noteValidation method b = none := by
  unfold noteValidation
  rw [h]
  simp

/-- Running `PATCH /:id` when every check passes. -/
theorem updateNote_ok_run {db : DB} {userId noteId : Nat} {b sb : NoteBody}
    {cur : Note}
    (hfind : findNote db noteId = some cur)
    (hown : cur.ownerId = userId)
    (hv : noteValidation Method.PATCH b = some sb)
    (hguard :
      (truthyBool sb.isProtected && !(truthyStr sb.password) && !cur.isProtected) = false) :
    updateNote db userId noteId b =
      (Except.ok (stripNote (patchedNote db cur sb)),
       { db with
         versions := db.versions ++ [snapshotOf db cur]
         notes := db.notes.map
           (fun n => if n.id == noteId then patchedNote db cur sb else n)
         nextVersionId := db.nextVersionId + 1
         clock := db.clock + 2 }) := by
  unfold updateNote checkNoteOwnership
  rw [hfind]
  dsimp only
  rw [if_neg (by simp [hown]), hv]
  dsimp only
  rw [if_neg (by simp [hguard])]

/-- Running `PATCH /:id` into the protect-without-password 400. -/
theorem updateNote_guard_fail {db : DB} {userId noteId : Nat} {b sb : NoteBody}
    {cur : Note}
    (hfind : findNote db noteId = some cur)
    (hown : cur.ownerId = userId)
    (hv : noteValidation Method.PATCH b = some sb)
    (hguard :
      (truthyBool sb.isProtected && !(truthyStr sb.password) && !cur.isProtected) = true) :
    updateNote db userId noteId b =
      (Except.error (ApiError.validation "Password is required when protecting a note"), db) := by
  unfold updateNote checkNoteOwnership
  rw [hfind]
  dsimp only
  rw [if_neg (by simp [hown]), hv]
  dsimp only
  rw [if_pos hguard]

/-- Running `PATCH /:id` into the 400 of `handleValidationErrors`. -/
theorem updateNote_validation_fail {db : DB} {userId noteId : Nat} {b : NoteBody}
    {cur : Note}
    (hfind : findNote db noteId = some cur)
    (hown : cur.ownerId = userId)
    (hv : noteValidation Method.PATCH b = none) :
    updateNote db userId noteId b =
      (Except.error (ApiError.validation "errors"), db) := by
  unfold updateNote checkNoteOwnership
  rw [hfind]
  dsimp only
  rw [if_neg (by simp [hown]), hv]

/-! ### Concrete stores for witnesses and counterexamples -/

/-- A fresh store holding one registered user. -/
def demoDB : DB :=
  { users := [{ id := 1, name := "User 1", email := "user1@example.com" }]
    notes := []
    versions := []
    nextNoteId := 1
    nextVersionId := 1
    clock := 0 }

/-- An unprotected create request body. -/
def demoCreateBody : NoteBody :=
  { title := some "T1", description := some "D1", isProtected := none, password := none }

/-- The 201 response of creating `demoCreateBody` in `demoDB` as user 1. -/
def demoCreateResp : NoteResponse := fullNote (createdNote demoDB 1 demoCreateBody)

/-- The store after that create. -/
def demoDB1 : DB := (createNote demoDB 1 demoCreateBody).2

/-- A patch renaming the note's title. -/
def demoPatch : NoteBody :=
  { title := some "T2", description := some "D1", isProtected := none, password := none }

/-- The store after the create and one title update. -/
def demoDB2 : DB := (applyUpdates 1 1 demoDB1 [demoPatch]).getD demoDB

/-- A protected create request body. -/
def c2CreateBody : NoteBody :=
  { title := some "T1", description := some "D1"
    isProtected := some true, password := some "secret1A!" }

/-- The store after creating the protected note in `demoDB` as user 1. -/
def c2DB1 : DB := (createNote demoDB 1 c2CreateBody).2

/-- The protected note row living in `c2DB1`. -/
def c2Note : Note := createdNote demoDB 1 c2CreateBody

/-- A patch that turns protection off, supplying no password. -/
def c2Unprotect : NoteBody :=
  { title := some "T1", description := some "D1"
    isProtected := some false, password := none }

/-- The store after applying `c2Unprotect` to the protected note. -/
def c2DB2 : DB := (updateNote c2DB1 1 1 c2Unprotect).2

/-! ### C1 -/

/-- C1 fails on the create path: `POST /` answers 201 with the full Prisma
row, so creating a protected note returns the freshly stored bcrypt hash in
the response's `password` field (every other note-returning handler strips
it with `password: undefined`). -/
theorem C1_create_response_contains_hash :
    ((createNote demoDB 1 c2CreateBody).1).map NoteResponse.password =
      Except.ok (some (bcryptHash "secret1A!")) := by rfl

/-! ### C2 -/

/-- C2 (amended): `PATCH /:id` never clears the stored password — `updateData`
only ever adds a truthy password. Hence a successful update whose patch sets
`isProtected` to `false` (and supplies no truthy password) clears the flag
but retains the previously stored password hash unchanged, so the
"hash present ⟺ isProtected" invariant does not survive such updates. -/
theorem C2_update_unprotect_retains_password {db db' : DB} {userId noteId : Nat}
    {b : NoteBody} {r : NoteResponse} {cur : Note}
    (hfind : findNote db noteId = some cur)
    (hb : b.isProtected = some false)
    (hbp : truthyStr b.password = false)
    (h : updateNote db userId noteId b = (Except.ok r, db')) :
    ∃ n', findNote db' noteId = some n' ∧ n'.isProtected = false ∧
      n'.password = cur.password := by
  obtain ⟨cur2, sb, hfind2, hv, hown, hr, hdb⟩ := updateNote_ok_inv h
  rw [hfind] at hfind2
  have hcc : cur = cur2 := Option.some.inj hfind2
  subst hcc
  have hsb := noteValidation_some hv
  subst hsb
  subst hdb
  have hcurid : cur.id = noteId := by simpa using List.find?_some hfind
  refine ⟨patchedNote db cur _,
    find?_replace _ hfind (by simp [patchedNote, hcurid]), ?_, ?_⟩
  · simp [patchedNote, hb]
  · simp [patchedNote, truthyBool, hb, hbp]

/-- C2 counterexample to the claim as stated: create a protected note (hash
stored), then successfully update it with `isProtected := false` and no
password — the resulting row has `isProtected = false` yet still stores the
bcrypt hash, so the stored hash is not absent after this update. -/
theorem C2_counterexample :
    (updateNote c2DB1 1 1 c2Unprotect).1.isOk = true ∧
    (findNote c2DB2 1).map (fun n => (n.isProtected, n.password)) =
      some (false, some (bcryptHash "secret1A!")) := ⟨rfl, rfl⟩

/-- Witness for `C2_update_unprotect_retains_password` on the concrete
protected note. -/
theorem C2_witness :
    ∃ n', findNote c2DB2 1 = some n' ∧ n'.isProtected = false ∧
      n'.password = c2Note.password :=
  @C2_update_unprotect_retains_password c2DB1 c2DB2 1 1 c2Unprotect
    (stripNote (patchedNote c2DB1 c2Note c2Unprotect)) c2Note
    (by rfl) (by rfl) (by rfl) (by rfl)

/-! ### C4 -/

/-- C4 counterexample to "all patch fields are optional": a PATCH of an
existing, owned note whose body omits `title` (supplying only a new
`description`) is rejected by the validation chain with a 400, and no update
happens. -/
theorem C4_counterexample :
    updateNote demoDB1 1 1
        { title := none, description := some "D2"
          isProtected := none, password := none } =
      (Except.error (ApiError.validation "errors"), demoDB1) := by rfl

/-- C4 (amended): on `PATCH /:id` the fields `isProtected` and `password`
are optional — a patch omitting both updates only title/description and
leaves the stored protection flag and password unchanged — but `title` and
`description` are *not* optional: the validation chain rejects a patch
omitting either with a 400, leaving the store untouched. Present title and
description replace the stored values (trimmed). -/
theorem C4_patch_semantics {db : DB} {userId noteId : Nat} {cur : Note}
    (b : NoteBody)
    (hfind : findNote db noteId = some cur)
    (hown : cur.ownerId = userId) :
    (b.title = none →
      updateNote db userId noteId b =
        (Except.error (ApiError.validation "errors"), db)) ∧
    (b.description = none →
      updateNote db userId noteId b =
        (Except.error (ApiError.validation "errors"), db)) ∧
    (∀ t d, b.title = some t → b.description = some d →
      ¬ strTrim t = "" → (strTrim t).length ≤ 255 → ¬ strTrim d = "" →
      b.isProtected = none → b.password = none →
      ∃ n' db', updateNote db userId noteId b = (Except.ok (stripNote n'), db') ∧
        findNote db' noteId = some n' ∧
        n'.title = strTrim t ∧ n'.description = strTrim d ∧
        n'.isProtected = cur.isProtected ∧ n'.password = cur.password) := by
  have hcurid : cur.id = noteId := by simpa using List.find?_some hfind
  refine ⟨?_, ?_, ?_⟩
  · intro hti
    exact updateNote_validation_fail hfind hown (noteValidation_no_title hti)
  · intro hde
    exact updateNote_validation_fail hfind hown (noteValidation_no_description hde)
  · intro t d ht hd ht1 ht2 hd1 hip hpw
    have hv := noteValidation_PATCH_ok ht hd ht1 ht2 hd1
    have hguard :
        (truthyBool ({ b with
            title := some (strTrim t)
            description := some (strTrim d) } : NoteBody).isProtected &&
          !(truthyStr ({ b with
            title := some (strTrim t)
            description := some (strTrim d) } : NoteBody).password) &&
          !cur.isProtected) = false := by
      simp [truthyBool, hip]
    have hrun := updateNote_ok_run hfind hown hv hguard
    refine ⟨patchedNote db cur _, _, hrun,
      find?_replace _ hfind (by simp [patchedNote, hcurid]), ?_, ?_, ?_, ?_⟩
    · simp [patchedNote]
    · simp [patchedNote]
    · simp [patchedNote, hip]
    · simp [patchedNote, truthyBool, truthyStr, hip, hpw]

/-- A patch (with a title to be trimmed) for the C4 witness. -/
def c4Patch : NoteBody :=
  { title := some " T2 ", description := some "D2"
    isProtected := none, password := none }

/-- Witness for `C4_patch_semantics`: partial update of the demo note. -/
theorem C4_witness :
    ∃ n' db', updateNote demoDB1 1 1 c4Patch = (Except.ok (stripNote n'), db') ∧
      findNote db' 1 = some n' ∧
      n'.title = strTrim " T2 " ∧ n'.description = strTrim "D2" ∧
      n'.isProtected = (createdNote demoDB 1 demoCreateBody).isProtected ∧
      n'.password = (createdNote demoDB 1 demoCreateBody).password :=
  (@C4_patch_semantics demoDB1 1 1 (createdNote demoDB 1 demoCreateBody)
    c4Patch (by rfl) (by rfl)).2.2 " T2 " "D2" (by rfl) (by rfl)
    (by decide) (by decide) (by decide) (by rfl) (by rfl)

/-! ### Revert evaluation lemmas -/

/-- Running `POST /:id/revert` when every check passes. -/
theorem revertNote_ok_run {db : DB} {userId noteId versionId : Nat}
    {cur : Note} {v : NoteVersion}
    (hfind : findNote db noteId = some cur)
    (hown : cur.ownerId = userId)
    (hv : findVersion db versionId = some v)
    (hvn : v.noteId = noteId) :
    revertNote db userId noteId versionId =
      (Except.ok (stripNote
        { cur with title := v.title, description := v.description,
                   updatedAt := db.clock + 1 }),
       { db with
         versions := db.versions ++ [snapshotOf db cur]
         notes := db.notes.map (fun n =>
           if n.id == noteId then
             { cur with title := v.title, description := v.description,
                        updatedAt := db.clock + 1 }
           else n)
         nextVersionId := db.nextVersionId + 1
         clock := db.clock + 2 }) := by
  unfold revertNote checkNoteOwnership
  rw [hfind]
  dsimp only
  rw [if_neg (by simp [hown]), hv]
  dsimp only
  rw [if_neg (by simp [hvn])]

/-! ### C5 -/

/-- C5: the revert round-trip law. From a state holding note `noteId` (owned
by the caller) and a persisted version `v` of it, reverting to `v` and then
reverting to the version created by that first revert (id
`db.nextVersionId`) restores the note's pre-first-revert title and
description exactly. -/
theorem C5_revert_roundtrip {db : DB} {userId noteId versionId : Nat}
    {cur : Note} {v : NoteVersion}
    (hwf : db.WF)
    (hfind : findNote db noteId = some cur)
    (hown : cur.ownerId = userId)
    (hv : findVersion db versionId = some v)
    (hvn : v.noteId = noteId) :
    ∃ db1 r1 db2 r2 n2,
      revertNote db userId noteId versionId = (Except.ok r1, db1) ∧
      revertNote db1 userId noteId db.nextVersionId = (Except.ok r2, db2) ∧
      findNote db2 noteId = some n2 ∧
      n2.title = cur.title ∧ n2.description = cur.description := by
  have hcurid : cur.id = noteId := by simpa using List.find?_some hfind
  have hrun1 := revertNote_ok_run hfind hown hv hvn
  have hfind1 : findNote
      { db with
        versions := db.versions ++ [snapshotOf db cur]
        notes := db.notes.map (fun n =>
          if n.id == noteId then
            { cur with title := v.title, description := v.description,
                       updatedAt := db.clock + 1 }
          else n)
        nextVersionId := db.nextVersionId + 1
        clock := db.clock + 2 } noteId =
      some { cur with title := v.title, description := v.description,
                      updatedAt := db.clock + 1 } :=
    find?_replace _ hfind (by simp [hcurid])
  have hfv1 : findVersion
      { db with
        versions := db.versions ++ [snapshotOf db cur]
        notes := db.notes.map (fun n =>
          if n.id == noteId then
            { cur with title := v.title, description := v.description,
                       updatedAt := db.clock + 1 }
          else n)
        nextVersionId := db.nextVersionId + 1
        clock := db.clock + 2 } db.nextVersionId = some (snapshotOf db cur) := by
    unfold findVersion
    dsimp only
    rw [find?_append_of_forall_false _ (fun w hw => by
      have := hwf.2.1 w hw
      simp
      omega)]
    simp [snapshotOf]
  have hrun2 := revertNote_ok_run hfind1 hown hfv1 (by simp [snapshotOf, hcurid])
  refine ⟨_, _, _, _, _, hrun1, hrun2,
    find?_replace _ hfind1 (by simp [hcurid]), ?_, ?_⟩
  · simp [snapshotOf]
  · simp [snapshotOf]

/-- A store holding a note (current title `T2`) and one persisted version
(title `T1`) for the C5 witness. -/
def c5DB : DB :=
  { users := [{ id := 1, name := "User 1", email := "user1@example.com" }]
    notes := [{ id := 1, title := "T2", description := "D2",
                isProtected := false, password := none, ownerId := 1,
                createdAt := 0, updatedAt := 4 }]
    versions := [{ id := 1, title := "T1", description := "D1",
                   noteId := 1, createdAt := 1 }]
    nextNoteId := 2
    nextVersionId := 2
    clock := 5 }

/-- Witness for `C5_revert_roundtrip` on `c5DB`. -/
theorem C5_witness :
    ∃ db1 r1 db2 r2 n2,
      revertNote c5DB 1 1 1 = (Except.ok r1, db1) ∧
      revertNote db1 1 1 2 = (Except.ok r2, db2) ∧
      findNote db2 1 = some n2 ∧
      n2.title = "T2" ∧ n2.description = "D2" :=
  @C5_revert_roundtrip c5DB 1 1 1
    { id := 1, title := "T2", description := "D2", isProtected := false,
      password := none, ownerId := 1, createdAt := 0, updatedAt := 4 }
    { id := 1, title := "T1", description := "D1", noteId := 1, createdAt := 1 }
    (by decide) (by rfl) (by rfl) (by rfl) (by rfl)

/-! ### C3 -/

/-- C3 (amended): in a well-formed store, after a create and `N` successful
updates, the versions endpoint returns the synthetic current entry first —
its title/description those of the live note, its timestamp the note's
last-update time — followed by exactly `N + 1` persisted versions (the
create-seeded initial snapshot plus one pre-update snapshot per update)
ordered by creation time descending. -/
theorem C3_versions_after_n_updates {db db1 db2 : DB} {userId : Nat}
    {body : NoteBody} {r : NoteResponse} {bs : List NoteBody}
    (hwf : db.WF)
    (hc : createNote db userId body = (Except.ok r, db1))
    (hu : applyUpdates userId r.id db1 bs = some db2) :
    ∃ note rest,
      findNote db2 r.id = some note ∧
      listVersions db2 userId r.id =
        Except.ok
          ({ id := none, title := note.title, description := note.description,
             noteId := note.id, createdAt := note.updatedAt,
             isCurrent := true } :: rest) ∧
      rest.length = bs.length + 1 ∧
      rest.Pairwise (fun a b => b.createdAt < a.createdAt) ∧
      (∀ e ∈ rest, e.isCurrent = false ∧ e.id ≠ none) := by
  have ht := versionTrack_applyUpdates (versionTrack_create hwf hc) hu
  obtain ⟨⟨note, hfind, hown⟩, hlen, hpw, hbound⟩ := ht
  refine ⟨note,
    (versionsOf db2 r.id).reverse.map (fun v =>
      { id := some v.id, title := v.title, description := v.description,
        noteId := v.noteId, createdAt := v.createdAt, isCurrent := false }),
    hfind, ?_, ?_, ?_, ?_⟩
  · unfold listVersions
    rw [hfind]
    dsimp only
    rw [if_neg (by simp [hown])]
    rw [sortByDesc_of_increasing _ hpw]
  · rw [List.length_map, List.length_reverse, hlen]
    omega
  · rw [List.pairwise_map]
    exact (List.pairwise_reverse).mpr hpw
  · intro e he
    rcases List.mem_map.mp he with ⟨v, hv, rfl⟩
    exact ⟨rfl, by simp⟩

/-- C3 counterexample to the claim as stated: with `N = 0` updates the claim
predicts the synthetic entry plus exactly `0` persisted versions, but right
after a create the endpoint already returns the synthetic entry plus the
`1` create-seeded snapshot — two entries in total. -/
theorem C3_counterexample :
    (listVersions demoDB1 1 1).map List.length = Except.ok 2 := by rfl

/-- Witness for `C3_versions_after_n_updates` at `demoDB`, one update. -/
theorem C3_witness :
    ∃ note rest,
      findNote demoDB2 1 = some note ∧
      listVersions demoDB2 1 1 =
        Except.ok
          ({ id := none, title := note.title, description := note.description,
             noteId := note.id, createdAt := note.updatedAt,
             isCurrent := true } :: rest) ∧
      rest.length = [demoPatch].length + 1 ∧
      rest.Pairwise (fun a b => b.createdAt < a.createdAt) ∧
      (∀ e ∈ rest, e.isCurrent = false ∧ e.id ≠ none) :=
  @C3_versions_after_n_updates demoDB demoDB1 demoDB2 1 demoCreateBody
    demoCreateResp [demoPatch] (by decide) (by rfl) (by rfl)

/-! ### C6 -/

/-- C6: the protection-password rule of `PATCH /:id` (for a patch passing the
field validation). If the patch sets `isProtected = true` on a note that was
not already protected and supplies no truthy password, the update fails with
the 400 "Password is required when protecting a note" and the store is
unchanged; if the note is already protected and no truthy password is
supplied, the update succeeds and the stored password hash is retained
unchanged. -/
theorem C6_protect_password_rule {db : DB} {userId noteId : Nat} {cur : Note}
    (b : NoteBody) {t d : String}
    (hfind : findNote db noteId = some cur)
    (hown : cur.ownerId = userId)
    (ht : b.title = some t) (hd : b.description = some d)
    (ht1 : ¬ strTrim t = "") (ht2 : (strTrim t).length ≤ 255)
    (hd1 : ¬ strTrim d = "") :
    (b.isProtected = some true → truthyStr b.password = false →
      cur.isProtected = false →
      updateNote db userId noteId b =
        (Except.error
          (ApiError.validation "Password is required when protecting a note"), db)) ∧
    (cur.isProtected = true → truthyStr b.password = false →
      ∃ n' db', updateNote db userId noteId b = (Except.ok (stripNote n'), db') ∧
        findNote db' noteId = some n' ∧ n'.password = cur.password) := by
  have hcurid : cur.id = noteId := by simpa using List.find?_some hfind
  have hv := noteValidation_PATCH_ok ht hd ht1 ht2 hd1
  constructor
  · intro hip hbp hnp
    apply updateNote_guard_fail hfind hown hv
    simp [truthyBool, hip, hbp, hnp]
  · intro hprot hbp
    have hguard :
        (truthyBool ({ b with
            title := some (strTrim t)
            description := some (strTrim d) } : NoteBody).isProtected &&
          !(truthyStr ({ b with
            title := some (strTrim t)
            description := some (strTrim d) } : NoteBody).password) &&
          !cur.isProtected) = false := by
      simp [hprot]
    have hrun := updateNote_ok_run hfind hown hv hguard
    refine ⟨patchedNote db cur _, _, hrun,
      find?_replace _ hfind (by simp [patchedNote, hcurid]), ?_⟩
    simp [patchedNote, hbp]

/-- A patch protecting a note without supplying a password. -/
def c6ProtectNoPw : NoteBody :=
  { title := some "T1", description := some "D1"
    isProtected := some true, password := none }

/-- A patch of a protected note that supplies no new password. -/
def c6KeepBody : NoteBody :=
  { title := some "T1", description := some "D1"
    isProtected := none, password := none }

/-- Witness for `C6_protect_password_rule`: both halves, on the unprotected
demo note and on the protected `c2DB1` note. -/
theorem C6_witness :
    (updateNote demoDB1 1 1 c6ProtectNoPw =
      (Except.error
        (ApiError.validation "Password is required when protecting a note"),
       demoDB1)) ∧
    (∃ n' db', updateNote c2DB1 1 1 c6KeepBody = (Except.ok (stripNote n'), db') ∧
      findNote db' 1 = some n' ∧ n'.password = c2Note.password) := by
  constructor
  · exact (@C6_protect_password_rule demoDB1 1 1
      (createdNote demoDB 1 demoCreateBody) c6ProtectNoPw "T1" "D1"
      (by rfl) (by rfl) (by rfl) (by rfl) (by decide) (by decide) (by decide)).1
      (by rfl) (by rfl) (by rfl)
  · exact (@C6_protect_password_rule c2DB1 1 1 c2Note c6KeepBody "T1" "D1"
      (by rfl) (by rfl) (by rfl) (by rfl) (by decide) (by decide) (by decide)).2
      (by rfl) (by rfl)

/-! ### C7 -/

/-- C7 (amended): `POST /:id/unlock` on an existing note. A falsy (missing or
empty) password fails with the 400 "Password is required" — not 401 — before
anything else is checked; with a non-empty password, an unprotected note
fails with the 400 "This note is not protected"; a non-empty password that
does not verify against the stored hash fails with the 401 "Invalid
password" and returns no content; a verifying password returns the full note
(description included) with the stored hash stripped. -/
theorem C7_unlock_cases {db : DB} {userId noteId : Nat} {note : Note}
    (pw : Option String)
    (hfind : findNote db noteId = some note) :
    (truthyStr pw = false →
      unlockNote db userId noteId pw =
        Except.error (ApiError.validation "Password is required")) ∧
    (truthyStr pw = true → note.isProtected = false →
      unlockNote db userId noteId pw =
        Except.error (ApiError.validation "This note is not protected")) ∧
    (truthyStr pw = true → note.isProtected = true →
      bcryptCompare (pw.getD "") note.password = false →
      unlockNote db userId noteId pw =
        Except.error (ApiError.unauthorized "Invalid password")) ∧
    (truthyStr pw = true → note.isProtected = true →
      bcryptCompare (pw.getD "") note.password = true →
      unlockNote db userId noteId pw = Except.ok (stripNote note) ∧
        (stripNote note).password = none ∧
        (stripNote note).description = some note.description) := by
  refine ⟨?_, ?_, ?_, ?_⟩
  · intro hpw
    unfold unlockNote
    rw [if_pos (by simp [hpw])]
  · intro hpw hnp
    unfold unlockNote
    rw [if_neg (by simp [hpw]), hfind]
    dsimp only
    rw [if_pos (by simp [hnp])]
  · intro hpw hp hcmp
    unfold unlockNote
    rw [if_neg (by simp [hpw]), hfind]
    dsimp only
    rw [if_neg (by simp [hp]), if_pos (by simp [hcmp])]
  · intro hpw hp hcmp
    refine ⟨?_, rfl, rfl⟩
    unfold unlockNote
    rw [if_neg (by simp [hpw]), hfind]
    dsimp only
    rw [if_neg (by simp [hp]), if_neg (by simp [hcmp])]

/-- C7 counterexample to the claim as stated: on the protected note, the
supplied empty password `""` does not verify against the stored hash, yet
the unlock fails with the 400 `ValidationError` "Password is required", not
with `UnauthorizedError`. -/
theorem C7_counterexample :
    bcryptCompare "" (some (bcryptHash "secret1A!")) = false ∧
    unlockNote c2DB1 2 1 (some "") =
      Except.error (ApiError.validation "Password is required") := ⟨rfl, rfl⟩

/-- Witness for `C7_unlock_cases`: all four branches on concrete stores —
missing password, unprotected note, wrong password, correct password. -/
theorem C7_witness :
    (unlockNote c2DB1 2 1 none =
      Except.error (ApiError.validation "Password is required")) ∧
    (unlockNote demoDB1 2 1 (some "x") =
      Except.error (ApiError.validation "This note is not protected")) ∧
    (unlockNote c2DB1 2 1 (some "wrong") =
      Except.error (ApiError.unauthorized "Invalid password")) ∧
    (unlockNote c2DB1 2 1 (some "secret1A!") = Except.ok (stripNote c2Note) ∧
      (stripNote c2Note).password = none ∧
      (stripNote c2Note).description = some c2Note.description) := by
  refine ⟨?_, ?_, ?_, ?_⟩
  · exact (@C7_unlock_cases c2DB1 2 1 c2Note none (by rfl)).1 (by rfl)
  · exact (@C7_unlock_cases demoDB1 2 1 (createdNote demoDB 1 demoCreateBody)
      (some "x") (by rfl)).2.1 (by rfl) (by rfl)
  · exact (@C7_unlock_cases c2DB1 2 1 c2Note (some "wrong") (by rfl)).2.2.1
      (by rfl) (by rfl) (by decide)
  · exact (@C7_unlock_cases c2DB1 2 1 c2Note (some "secret1A!") (by rfl)).2.2.2
      (by rfl) (by rfl) (by decide)

/-! ### C8 -/

/-- C8: `POST /:id/revert` by the owner with a `versionId` that either does
not resolve to a persisted `NoteVersion` or resolves to one belonging to a
different note fails with the 404 "Version not found", before any write: the
store — note and version history — is returned unchanged. -/
theorem C8_revert_bad_version {db : DB} {userId noteId versionId : Nat}
    {cur : Note}
    (hfind : findNote db noteId = some cur)
    (hown : cur.ownerId = userId)
    (hbad : findVersion db versionId = none ∨
      ∃ v, findVersion db versionId = some v ∧ ¬ v.noteId = noteId) :
    revertNote db userId noteId versionId =
      (Except.error (ApiError.notFound "Version not found"), db) := by
  unfold revertNote checkNoteOwnership
  rw [hfind]
  dsimp only
  rw [if_neg (by simp [hown])]
  rcases hbad with hnone | ⟨v, hv, hvn⟩
  · rw [hnone]
  · rw [hv]
    dsimp only
    rw [if_pos (by simp [hvn])]

/-- Two notes of user 1; the only version belongs to note 2. -/
def c8DB : DB :=
  { users := [{ id := 1, name := "User 1", email := "user1@example.com" }]
    notes := [{ id := 1, title := "A", description := "a",
                isProtected := false, password := none, ownerId := 1,
                createdAt := 0, updatedAt := 1 },
              { id := 2, title := "B", description := "b",
                isProtected := false, password := none, ownerId := 1,
                createdAt := 2, updatedAt := 3 }]
    versions := [{ id := 7, title := "B0", description := "b0",
                   noteId := 2, createdAt := 4 }]
    nextNoteId := 3
    nextVersionId := 8
    clock := 9 }

/-- Witness for `C8_revert_bad_version`: reverting note 1 with a version id
of note 2 answers 404 and leaves the store unchanged. -/
theorem C8_witness :
    revertNote c8DB 1 1 7 =
      (Except.error (ApiError.notFound "Version not found"), c8DB) :=
  @C8_revert_bad_version c8DB 1 1 7
    { id := 1, title := "A", description := "a", isProtected := false,
      password := none, ownerId := 1, createdAt := 0, updatedAt := 1 }
    (by rfl) (by rfl)
    (Or.inr ⟨{ id := 7, title := "B0", description := "b0", noteId := 2,
               createdAt := 4 }, by rfl, by decide⟩)

/-! ### C9 -/

/-- C9: on `PATCH /:id`, a patch carrying a non-empty `password` while
`isProtected` is absent or `false` bypasses the hashing guard — the update
succeeds and the supplied password string is written to the note's stored
`password` field verbatim, unhashed. -/
theorem C9_raw_password_stored {db : DB} {userId noteId : Nat} {cur : Note}
    (b : NoteBody) {t d p : String}
    (hfind : findNote db noteId = some cur)
    (hown : cur.ownerId = userId)
    (ht : b.title = some t) (hd : b.description = some d)
    (ht1 : ¬ strTrim t = "") (ht2 : (strTrim t).length ≤ 255)
    (hd1 : ¬ strTrim d = "")
    (hp : b.password = some p) (hpne : ¬ p = "")
    (hip : truthyBool b.isProtected = false) :
    ∃ n' db', updateNote db userId noteId b = (Except.ok (stripNote n'), db') ∧
      findNote db' noteId = some n' ∧ n'.password = some p := by
  have hcurid : cur.id = noteId := by simpa using List.find?_some hfind
  have hv := noteValidation_PATCH_ok ht hd ht1 ht2 hd1
  have hguard :
      (truthyBool ({ b with
          title := some (strTrim t)
          description := some (strTrim d) } : NoteBody).isProtected &&
        !(truthyStr ({ b with
          title := some (strTrim t)
          description := some (strTrim d) } : NoteBody).password) &&
        !cur.isProtected) = false := by
    simp [hip]
  have hrun := updateNote_ok_run hfind hown hv hguard
  refine ⟨patchedNote db cur _, _, hrun,
    find?_replace _ hfind (by simp [patchedNote, hcurid]), ?_⟩
  simp [patchedNote, hip, hp, truthyStr, hpne]

/-- A patch supplying a plain password with protection off. -/
def c9Patch : NoteBody :=
  { title := some "T1", description := some "D1"
    isProtected := some false, password := some "plainpw" }

/-- Witness for `C9_raw_password_stored`: after the patch, the unhashed
string `plainpw` sits in the stored `password` column. -/
theorem C9_witness :
    ∃ n' db', updateNote demoDB1 1 1 c9Patch = (Except.ok (stripNote n'), db') ∧
      findNote db' 1 = some n' ∧ n'.password = some "plainpw" :=
  @C9_raw_password_stored demoDB1 1 1 (createdNote demoDB 1 demoCreateBody)
    c9Patch "T1" "D1" "plainpw"
    (by rfl) (by rfl) (by rfl) (by rfl) (by decide) (by decide) (by decide)
    (by rfl) (by decide) (by rfl)

/-! ### C10 -/

/-- C10: `GET /` queries every note row — there is no owner filter, so every
authenticated caller receives the metadata (including title, protection
flag, timestamps and the owner's id/name/email) of every user's notes,
ordered by `updatedAt` descending. -/
theorem C10_list_notes_global (db : DB) (userId : Nat) :
    (listNotes db userId).length = db.notes.length ∧
    (∀ n ∈ db.notes, toListItem db n ∈ listNotes db userId) ∧
    (∀ n ∈ db.notes, (toListItem db n).title = n.title ∧
      (toListItem db n).isProtected = n.isProtected ∧
      (toListItem db n).ownerId = ((findUser db n.ownerId).getD
        { id := n.ownerId, name := "", email := "" }).id) ∧
    (listNotes db userId).Pairwise (fun a b => b.updatedAt ≤ a.updatedAt) := by
  refine ⟨?_, ?_, ?_, ?_⟩
  · unfold listNotes
    rw [List.length_map, length_sortByDesc]
  · intro n hn
    unfold listNotes
    exact List.mem_map_of_mem _ ((mem_sortByDesc _ _ _).mpr hn)
  · intro n hn
    exact ⟨rfl, rfl, rfl⟩
  · unfold listNotes
    rw [List.pairwise_map]
    exact pairwise_sortByDesc _ _

end NoteApp
